import Mathlib

/-!
Verification of the `regular` recurring-task execution engine
(package `regular`, file src/regular/regular.go).

The Go code is embedded shallowly:
* `CheckTime` is a pure function over clock components.  In the source it
  builds three `time.Time` values with `time.Date(0, 0, 0, hour, minute, ...)`
  and compares their differences; since `time.Date` normalises its arguments
  additively, `a.Sub(b)` is exactly `(aHour*60+aMinute) - (bHour*60+bMinute)`
  minutes, so the embedding works on total minutes as `Int`.
* The engine's configuration container is modelled with an explicit heap
  (`Nat → Config`) so that the pointer identity of `*Config` — the source
  stores and returns the caller's pointer — is observable.
* `Engine.run` (the inner retry loop) is modelled as a fuel-indexed function
  over an execution trace: the n-th task invocation's outcome, the value the
  n-th `GetConfig` call returns, and whether the context is cancelled at each
  iteration boundary.  A ghost list records every sleep the loop performs.
* The outer polling loop of `Engine.Start` is modelled as a transition
  function on the loop's mutable state (`currentStartHour`,
  `currentStartMinute`, the cancellation handle) applied once per tick, with a
  ghost list recording every goroutine launch.
-/

namespace Regular

/-- Embedding of `CheckTime` (src/regular/regular.go, lines 184-210).
Times are total minutes; `since = startTime - endTime` decides the three
branches exactly as `startTime.Sub(endTime)` does in the source. -/
def CheckTime (startHour startMinute endHour endMinute currentHour currentMinute : Int) :
    Bool × Bool :=
  let startTime : Int := startHour * 60 + startMinute
  let endTime : Int := endHour * 60 + endMinute
  let currentTime : Int := currentHour * 60 + currentMinute
  let since : Int := startTime - endTime
  if since = 0 then
    (true, false)
  else if since < 0 then
    (decide (0 ≤ currentTime - startTime), decide (0 ≤ currentTime - endTime))
  else
    let en : Bool := decide (0 ≤ currentTime - endTime)
    if 0 ≤ currentTime - startTime ∨ en = false then (true, false)
    else (false, en)

/-- C5: a window whose start time equals its end time always reports
`start = true`, `end = false`, whatever the current time is. -/
theorem checkTime_degenerate (sh sm eh em ch cm : Int)
    (heq : sh * 60 + sm = eh * 60 + em) :
    CheckTime sh sm eh em ch cm = (true, false) := by
  simp only [CheckTime]
  have h0 : sh * 60 + sm - (eh * 60 + em) = 0 := by omega
  simp [h0]

/-- Witness for `checkTime_degenerate` at the concrete window 09:00-09:00
and current time 23:59. -/
theorem checkTime_degenerate_witness :
    (9 * 60 + 0 : Int) = 9 * 60 + 0 ∧ CheckTime 9 0 9 0 23 59 = (true, false) :=
  ⟨rfl, checkTime_degenerate 9 0 9 0 23 59 rfl⟩

/-- C4 counterexample: the claim quantifies over all windows with
start ≤ end, but at start = end (degenerate branch) the claim's equations
fail: window 09:00-09:00 at current time 08:00 returns `start = true`
although `now ≥ startTime` is false (and `now ≥ endTime` is also false). -/
theorem checkTime_nonwrap_counterexample :
    (9 * 60 + 0 : Int) ≤ 9 * 60 + 0 ∧
    (8 * 60 + 0 : Int) < 9 * 60 + 0 ∧
    (CheckTime 9 0 9 0 8 0).1 = true := by
  refine ⟨le_refl _, by norm_num, ?_⟩
  rfl

/-- C4 amended: for every strictly non-wrapping window (start chronologically
before end), `start = (now ≥ startTime)`, `end = (now ≥ endTime)`, and
`start && end` forces `now ≥ endTime`. -/
theorem checkTime_nonwrap (sh sm eh em ch cm : Int)
    (hlt : sh * 60 + sm < eh * 60 + em) :
    ((CheckTime sh sm eh em ch cm).1 = true ↔ sh * 60 + sm ≤ ch * 60 + cm) ∧
    ((CheckTime sh sm eh em ch cm).2 = true ↔ eh * 60 + em ≤ ch * 60 + cm) ∧
    ((CheckTime sh sm eh em ch cm).1 = true ∧ (CheckTime sh sm eh em ch cm).2 = true →
      eh * 60 + em ≤ ch * 60 + cm) := by
  have hne : ¬(sh * 60 + sm - (eh * 60 + em) = 0) := by omega
  have hneg : sh * 60 + sm - (eh * 60 + em) < 0 := by omega
  simp only [CheckTime, if_neg hne, if_pos hneg]
  constructor
  · simp only [decide_eq_true_eq]; omega
  constructor
  · simp only [decide_eq_true_eq]; omega
  · simp only [decide_eq_true_eq]; omega

/-- Witness for `checkTime_nonwrap`: window 09:00-17:00 at 10:30
(spec scenario A) gives `start = true`, `end = false`. -/
theorem checkTime_nonwrap_witness :
    (9 * 60 + 0 : Int) < 17 * 60 + 0 ∧
    (((CheckTime 9 0 17 0 10 30).1 = true ↔ (9 * 60 + 0 : Int) ≤ 10 * 60 + 30) ∧
     ((CheckTime 9 0 17 0 10 30).2 = true ↔ (17 * 60 + 0 : Int) ≤ 10 * 60 + 30) ∧
     ((CheckTime 9 0 17 0 10 30).1 = true ∧ (CheckTime 9 0 17 0 10 30).2 = true →
       (17 * 60 + 0 : Int) ≤ 10 * 60 + 30)) :=
  ⟨by norm_num, checkTime_nonwrap 9 0 17 0 10 30 (by norm_num)⟩

/-- C3 counterexample: the claim says that for a wrapping window
`end = true` iff `now ≥ endTime`; but for window 22:00-06:00 at 23:00 the
source forces `end = false` (because the wrap branch sets `start = true`)
even though 23:00 ≥ 06:00. -/
theorem checkTime_wrap_counterexample :
    (6 * 60 + 0 : Int) < 22 * 60 + 0 ∧
    (6 * 60 + 0 : Int) ≤ 23 * 60 + 0 ∧
    (CheckTime 22 0 6 0 23 0).2 = false := by
  refine ⟨by norm_num, by norm_num, ?_⟩
  rfl

/-- C3 amended: for every wrapping window (start chronologically after end),
`start = true` iff `now ≥ startTime ∨ now < endTime`; `end = true` iff
`now ≥ endTime` and `start = false` (the wrap branch overwrites `end` with
`false` whenever it sets `start`); `start` and `end` are never both true. -/
theorem checkTime_wrap (sh sm eh em ch cm : Int)
    (hwrap : eh * 60 + em < sh * 60 + sm) :
    ((CheckTime sh sm eh em ch cm).1 = true ↔
      (sh * 60 + sm ≤ ch * 60 + cm ∨ ch * 60 + cm < eh * 60 + em)) ∧
    ((CheckTime sh sm eh em ch cm).2 = true ↔
      (eh * 60 + em ≤ ch * 60 + cm ∧ (CheckTime sh sm eh em ch cm).1 = false)) ∧
    ¬((CheckTime sh sm eh em ch cm).1 = true ∧ (CheckTime sh sm eh em ch cm).2 = true) := by
  have hne : ¬(sh * 60 + sm - (eh * 60 + em) = 0) := by omega
  have hnneg : ¬(sh * 60 + sm - (eh * 60 + em) < 0) := by omega
  simp only [CheckTime, if_neg hne, if_neg hnneg]
  rcases le_or_lt (sh * 60 + sm) (ch * 60 + cm) with hA | hA
  · rw [if_pos (Or.inl (by omega))]
    refine ⟨by simpa using Or.inl hA, by simp, by simp⟩
  · rcases le_or_lt (eh * 60 + em) (ch * 60 + cm) with hB | hB
    · have hd : decide (0 ≤ ch * 60 + cm - (eh * 60 + em)) = true := by
        simp only [decide_eq_true_eq]; omega
      rw [if_neg (by simp only [hd, Bool.true_eq_false, or_false]; omega)]
      refine ⟨by simp; omega, ?_, by simp⟩
      rw [hd]; simp; omega
    · have hd : decide (0 ≤ ch * 60 + cm - (eh * 60 + em)) = false := by
        simp only [decide_eq_false_iff_not]; omega
      rw [if_pos (Or.inr hd)]
      refine ⟨by simp; omega, by simp, by simp⟩

/-- Witness for `checkTime_wrap`: window 22:00-06:00 at 23:00
(spec scenario B) gives `start = true`, `end = false`. -/
theorem checkTime_wrap_witness :
    (6 * 60 + 0 : Int) < 22 * 60 + 0 ∧
    (((CheckTime 22 0 6 0 23 0).1 = true ↔
       ((22 * 60 + 0 : Int) ≤ 23 * 60 + 0 ∨ (23 * 60 + 0 : Int) < 6 * 60 + 0)) ∧
     ((CheckTime 22 0 6 0 23 0).2 = true ↔
       ((6 * 60 + 0 : Int) ≤ 23 * 60 + 0 ∧ (CheckTime 22 0 6 0 23 0).1 = false)) ∧
     ¬((CheckTime 22 0 6 0 23 0).1 = true ∧ (CheckTime 22 0 6 0 23 0).2 = true)) :=
  ⟨by norm_num, checkTime_wrap 22 0 6 0 23 0 (by norm_num)⟩

/-- State of a Go channel as far as `close` is concerned.  The zero value of
a channel field is the nil channel. -/
inductive ChanState
  | nilChan
  | opened
  | closed
deriving Repr, DecidableEq

/-- Outcome of a Go operation that can panic at run time. -/
inductive GoResult
  | ok
  | panicked (msg : String)
deriving Repr, DecidableEq

/-- Go semantics of a channel close: closing a nil channel and closing an
already-closed channel both panic at run time (Go language specification,
"Close"). -/
def closeChan : ChanState → GoResult × ChanState
  | ChanState.nilChan => (GoResult.panicked ("close of nil channel"), ChanState.nilChan)
  | ChanState.opened => (GoResult.ok, ChanState.closed)
  | ChanState.closed => (GoResult.panicked ("close of closed channel"), ChanState.closed)

/-- Modelled from the spec and regular.go's field usage: the `TimePeriod`
struct (the spec's TimeWindow) is defined outside src/regular/regular.go;
regular.go uses its `Parse` method and its parsed clock fields `startHour`,
`startMinute`, `endHour`, `endMinute`.  Per the spec, a window carries raw
"HH:MM"-style start and end strings plus the four parsed clock components. -/
structure TimePeriod where
  Start : String
  End : String
  startHour : Int := 0
  startMinute : Int := 0
  endHour : Int := 0
  endMinute : Int := 0
deriving Repr, DecidableEq

/-- Decimal evaluation of a digit list; fails on any non-digit character. -/
def digitsToNatAux : List Char → Nat → Option Nat
  | [], acc => some acc
  | c :: rest, acc =>
    if c.isDigit then digitsToNatAux rest (acc * 10 + (c.toNat - 48)) else none

/-- A non-empty all-digit character list read as a decimal number. -/
def digitsToNat : List Char → Option Nat
  | [] => none
  | cs => digitsToNatAux cs 0

/-- Splits a character list at its unique colon; fails when there is no
colon or more than one. -/
def splitColon : List Char → Option (List Char × List Char)
  | [] => none
  | c :: rest =>
    if c = ':' then
      if rest.contains ':' then none else some ([], rest)
    else
      match splitColon rest with
      | some (l, r) => some (c :: l, r)
      | none => none

/-- Modelled from the spec: the clock-string parser backing
`TimePeriod.Parse` is defined outside src/regular/regular.go.  Per the spec
a clock string is "HH:MM"-style and the parsed components must lie in valid
clock ranges (0-23 hours, 0-59 minutes); anything else is a parse error. -/
def parseClock (s : String) : Except String (Int × Int) :=
  match splitColon s.data with
  | none => Except.error ("invalid clock string " ++ s)
  | some (hcs, mcs) =>
    match digitsToNat hcs, digitsToNat mcs with
    | some h, some m =>
      if h ≤ 23 ∧ m ≤ 59 then Except.ok ((h : Int), (m : Int))
      else Except.error ("clock value out of range in " ++ s)
    | _, _ => Except.error ("invalid clock string " ++ s)

/-- Modelled from the spec: `TimePeriod.Parse` is defined outside
src/regular/regular.go; `Engine.SetConfig` calls it once per window.  Per
the spec it fills the four clock fields from the raw strings and fails on a
malformed start or end string. -/
def TimePeriod.Parse (p : TimePeriod) : Except String TimePeriod :=
  match parseClock p.Start with
  | Except.error msg => Except.error msg
  | Except.ok (sh, sm) =>
    match parseClock p.End with
    | Except.error msg => Except.error msg
    | Except.ok (eh, em) =>
      Except.ok { p with startHour := sh, startMinute := sm, endHour := eh, endMinute := em }

/-- Modelled from the spec and regular.go's field usage: the `Config` struct
is defined outside src/regular/regular.go; regular.go reads and writes its
fields `Name`, `Periods` (ordered window list), `SuccessInterval` and
`FailInterval` (delays in milliseconds, signed). -/
structure Config where
  Name : String
  Periods : List TimePeriod
  SuccessInterval : Int
  FailInterval : Int
deriving Repr, DecidableEq

/-- Go heap for `Config` allocations: a `*Config` pointer is an address. -/
abbrev Heap := Nat → Config

/-- The `Engine` fields relevant to configuration and shutdown:
`cfgPtr` is the `cfg *Config` field (a pointer, `none` for nil), `stopCh`
the shutdown channel (nil until `Start` makes it). -/
structure Engine where
  cfgPtr : Option Nat := none
  stopCh : ChanState := ChanState.nilChan
deriving Repr, DecidableEq

/-- Embedding of the parse loop of `Engine.SetConfig` (regular.go lines
66-70) as observed through the config pointer: `v.Parse()` updates each
period in place, so when window `k` fails the windows before it are already
parsed.  Returns the period list after the loop together with the formatted
error of the first failure, if any. -/
def parsePeriods : List TimePeriod → Nat → List TimePeriod × Option String
  | [], _ => ([], none)
  | v :: rest, k =>
    match v.Parse with
    | Except.error msg =>
      (v :: rest, some ("analysis time period " ++ toString k ++ " failed: " ++ msg))
    | Except.ok v2 =>
      let r := parsePeriods rest (k + 1)
      (v2 :: r.1, r.2)

/-- Index and parse error of the first window whose `Parse` fails. -/
def firstFail : List TimePeriod → Nat → Option (Nat × String)
  | [], _ => none
  | v :: rest, k =>
    match v.Parse with
    | Except.error msg => some (k, msg)
    | Except.ok _ => firstFail rest (k + 1)

/-- Embedding of `Engine.SetConfig` (regular.go lines 62-79) over the
explicit heap: a nil config is accepted without any change; otherwise every
period of the pointed-to config is parsed in place; the first parse failure
aborts with its formatted error, leaving `e.cfg` untouched; on success the
name is defaulted to "regular" when blank and the very pointer that was
passed in is installed as `e.cfg`. -/
def Engine.SetConfig (heap : Heap) (e : Engine) (cfg : Option Nat) :
    Except String Unit × Heap × Engine :=
  match cfg with
  | none => (Except.ok (), heap, e)
  | some a =>
    let c := heap a
    let r := parsePeriods c.Periods 0
    match r.2 with
    | some msg =>
      (Except.error msg, fun b => if b = a then { c with Periods := r.1 } else heap b, e)
    | none =>
      let c2 : Config :=
        { c with
          Periods := r.1
          Name := if c.Name = "" then "regular" else c.Name }
      (Except.ok (), fun b => if b = a then c2 else heap b, { e with cfgPtr := some a })

/-- Embedding of `Engine.GetConfig` (regular.go lines 81-85): returns the
stored `*Config` pointer itself, not a copy. -/
def Engine.GetConfig (e : Engine) : Option Nat := e.cfgPtr

/-- The config value a caller sees when dereferencing `GetConfig`. -/
def observedConfig (heap : Heap) (e : Engine) : Option Config :=
  (Engine.GetConfig e).map heap

/-- Embedding of `Engine.Shutdown` (regular.go lines 87-89): a bare
`close` of the stop channel with Go's close semantics. -/
def Engine.Shutdown (e : Engine) : GoResult × Engine :=
  let r := closeChan e.stopCh
  (r.1, { e with stopCh := r.2 })

/-- The first statement of `Engine.Start` (regular.go line 92): a fresh
(open) stop channel is assigned to `e.stopCh`. -/
def Engine.startInit (e : Engine) : Engine := { e with stopCh := ChanState.opened }

/-- C2: the claim says `Shutdown` is an idempotent safe no-op, but the
source is a bare channel close: calling `Shutdown` before any `Start`
closes a nil channel and panics, and calling it twice after a `Start`
panics on the second call with "close of closed channel". -/
theorem shutdown_twice_panics :
    (Engine.Shutdown { cfgPtr := none, stopCh := ChanState.nilChan }).1 =
      GoResult.panicked ("close of nil channel") ∧
    (Engine.Shutdown (Engine.Shutdown (Engine.startInit
      { cfgPtr := none, stopCh := ChanState.nilChan })).2).1 =
      GoResult.panicked ("close of closed channel") :=
  ⟨rfl, rfl⟩

/-- The error produced by the parse loop is the formatted message of the
first failing window. -/
theorem parsePeriods_snd (ps : List TimePeriod) (k : Nat) :
    (parsePeriods ps k).2 =
      (firstFail ps k).map
        (fun f => "analysis time period " ++ toString f.1 ++ " failed: " ++ f.2) := by
  induction ps generalizing k with
  | nil => rfl
  | cons v rest ih =>
    simp only [parsePeriods, firstFail]
    cases hp : v.Parse with
    | error msg => rfl
    | ok v2 => simpa using ih (k + 1)

/-- C6: installing a config in which some window fails to parse returns the
formatted error naming the first failing window's index, leaves the engine
(in particular its config pointer) unchanged, and leaves the config
observable through `GetConfig` unchanged. -/
theorem setConfig_rejects_atomically (heap : Heap) (e : Engine) (a i : Nat)
    (msg : String)
    (hptr : e.cfgPtr ≠ some a)
    (hfail : firstFail (heap a).Periods 0 = some (i, msg)) :
    (Engine.SetConfig heap e (some a)).1 =
      Except.error ("analysis time period " ++ toString i ++ " failed: " ++ msg) ∧
    (Engine.SetConfig heap e (some a)).2.2 = e ∧
    observedConfig (Engine.SetConfig heap e (some a)).2.1
      (Engine.SetConfig heap e (some a)).2.2 = observedConfig heap e := by
  have hsnd := parsePeriods_snd (heap a).Periods 0
  rw [hfail] at hsnd
  simp only [Option.map] at hsnd
  simp only [Engine.SetConfig, hsnd]
  refine ⟨by trivial, by trivial, ?_⟩
  simp only [observedConfig, Engine.GetConfig]
  cases hcp : e.cfgPtr with
  | none => rfl
  | some b =>
    have hba : ¬(b = a) := by intro h; exact hptr (by rw [hcp, h])
    simp [hba]

/-- A window that parses: 08:00-09:00. -/
def windowGood : TimePeriod := { Start := "08:00", End := "09:00" }

/-- A window whose end string has an out-of-range minute. -/
def windowBad : TimePeriod := { Start := "10:00", End := "10:99" }

/-- A heap holding the previously installed config at address 0 and a new
config (one valid window, then one invalid window) at address 1. -/
def heap0 : Heap := fun a =>
  if a = 0 then
    { Name := "old", Periods := [windowGood], SuccessInterval := 0, FailInterval := 0 }
  else
    { Name := "", Periods := [windowGood, windowBad], SuccessInterval := 0, FailInterval := 0 }

/-- An engine whose installed config lives at address 0. -/
def engine0 : Engine := { cfgPtr := some 0, stopCh := ChanState.nilChan }

/-- Witness for `setConfig_rejects_atomically`: a config whose window 1 has
end string "10:99" is rejected with the index-1 message and the installed
config is untouched. -/
theorem setConfig_rejects_atomically_witness :
    engine0.cfgPtr ≠ some 1 ∧
    firstFail (heap0 1).Periods 0 = some (1, "clock value out of range in 10:99") ∧
    ((Engine.SetConfig heap0 engine0 (some 1)).1 =
       Except.error ("analysis time period " ++ toString 1 ++ " failed: " ++
         "clock value out of range in 10:99") ∧
     (Engine.SetConfig heap0 engine0 (some 1)).2.2 = engine0 ∧
     observedConfig (Engine.SetConfig heap0 engine0 (some 1)).2.1
       (Engine.SetConfig heap0 engine0 (some 1)).2.2 = observedConfig heap0 engine0) :=
  ⟨by decide, by decide,
   setConfig_rejects_atomically heap0 engine0 1 1 ("clock value out of range in 10:99")
     (by decide) (by decide)⟩

/-- C10: when every window parses, `SetConfig` mutates the pointed-to config
in place (periods parsed, blank name defaulted to "regular"), touches no
other allocation, installs the very pointer it was given, and `GetConfig`
afterwards returns that identical pointer. -/
theorem setConfig_installs_caller_pointer (heap : Heap) (e : Engine) (a : Nat)
    (hok : (parsePeriods (heap a).Periods 0).2 = none) :
    (Engine.SetConfig heap e (some a)).1 = Except.ok () ∧
    (Engine.SetConfig heap e (some a)).2.2.cfgPtr = some a ∧
    Engine.GetConfig (Engine.SetConfig heap e (some a)).2.2 = some a ∧
    (Engine.SetConfig heap e (some a)).2.1 a =
      { heap a with
        Periods := (parsePeriods (heap a).Periods 0).1
        Name := if (heap a).Name = "" then "regular" else (heap a).Name } ∧
    (∀ b, ¬(b = a) → (Engine.SetConfig heap e (some a)).2.1 b = heap b) := by
  simp only [Engine.SetConfig, hok]
  refine ⟨by trivial, by trivial, by trivial, by simp, ?_⟩
  intro b hb
  simp [hb]

/-- A heap holding a fully valid new config (blank name) at address 1. -/
def heap1 : Heap := fun a =>
  if a = 1 then
    { Name := "", Periods := [windowGood], SuccessInterval := 5, FailInterval := 7 }
  else
    { Name := "old", Periods := [], SuccessInterval := 0, FailInterval := 0 }

/-- Witness for `setConfig_installs_caller_pointer` at address 1 of
`heap1`, with the frame condition checked at address 0. -/
theorem setConfig_installs_caller_pointer_witness :
    (parsePeriods (heap1 1).Periods 0).2 = none ∧
    ((Engine.SetConfig heap1 engine0 (some 1)).1 = Except.ok () ∧
     (Engine.SetConfig heap1 engine0 (some 1)).2.2.cfgPtr = some 1 ∧
     Engine.GetConfig (Engine.SetConfig heap1 engine0 (some 1)).2.2 = some 1 ∧
     (Engine.SetConfig heap1 engine0 (some 1)).2.1 1 =
       { heap1 1 with
         Periods := (parsePeriods (heap1 1).Periods 0).1
         Name := if (heap1 1).Name = "" then "regular" else (heap1 1).Name } ∧
     (Engine.SetConfig heap1 engine0 (some 1)).2.1 0 = heap1 0) :=
  ⟨by decide,
   (setConfig_installs_caller_pointer heap1 engine0 1 (by decide)).1,
   (setConfig_installs_caller_pointer heap1 engine0 1 (by decide)).2.1,
   (setConfig_installs_caller_pointer heap1 engine0 1 (by decide)).2.2.1,
   (setConfig_installs_caller_pointer heap1 engine0 1 (by decide)).2.2.2.1,
   (setConfig_installs_caller_pointer heap1 engine0 1 (by decide)).2.2.2.2 0 (by decide)⟩

/-- Result of the run loop: context cancellation observed at a loop
boundary, a fatal task error, a one-shot success return, or fuel
exhaustion (the loop is still running). -/
inductive RunResult
  | ctxCancelled
  | taskErr (msg : String)
  | success
  | fuelOut
deriving Repr, DecidableEq

/-- Ghost trace of one `Engine.run` execution: its outcome, every sleep it
performed (`true` = post-failure sleep, `false` = post-success sleep,
paired with the milliseconds slept), and how many times the task ran. -/
structure RunTrace where
  result : RunResult
  sleeps : List (Bool × Int)
  invocations : Nat
deriving Repr, DecidableEq

/-- Embedding of the body of `Engine.run` (regular.go lines 155-182) as a
fuel-indexed loop over an execution trace.  `cancelled n` says whether the
context is already done at the n-th iteration boundary, `taskRes n` is the
n-th task invocation's error (`none` = success), and `live g` is the config
the g-th `GetConfig` call returns.  The loop state carries the local `cfg`
variable, the next `GetConfig` index `g` and the next invocation index `n`;
note that `cfg` is re-read only after a successful invocation, exactly as
in the source. -/
def runGo (cancelled : Nat → Bool) (taskRes : Nat → Option String) (live : Nat → Config) :
    Nat → Config → Nat → Nat → RunTrace
  | 0, _, _, n => ⟨RunResult.fuelOut, [], n⟩
  | fuel + 1, cfg, g, n =>
    if cancelled n then ⟨RunResult.ctxCancelled, [], n⟩
    else
      match taskRes n with
      | some err =>
        if cfg.FailInterval < 0 then ⟨RunResult.taskErr err, [], n + 1⟩
        else
          let t := runGo cancelled taskRes live fuel cfg g (n + 1)
          ⟨t.result, (true, cfg.FailInterval) :: t.sleeps, t.invocations⟩
      | none =>
        let cfg2 := live g
        if cfg2.SuccessInterval < 0 then ⟨RunResult.success, [], n + 1⟩
        else
          let t := runGo cancelled taskRes live fuel cfg2 (g + 1) (n + 1)
          ⟨t.result, (false, cfg2.SuccessInterval) :: t.sleeps, t.invocations⟩

/-- Embedding of `Engine.run` (regular.go lines 155-182): the local `cfg`
is initialised by a first `GetConfig` call (`live 0`), then the loop runs. -/
def Engine.run (cancelled : Nat → Bool) (taskRes : Nat → Option String)
    (live : Nat → Config) (fuel : Nat) : RunTrace :=
  runGo cancelled taskRes live fuel (live 0) 1 0

/-- Outcome of `Engine.Start` in the trace model: either the no-window
branch (which returns whatever the run loop returns) or the polling branch
(modelled separately by `pollTicks`). -/
inductive StartOutcome
  | noWindow (t : RunTrace)
  | windowed
deriving Repr, DecidableEq

/-- Embedding of the branch of `Engine.Start` at regular.go lines 104-106:
after the second-alignment busy wait (pure real time, no state), if the
live config has no periods, `Start` returns `e.run(ctx, task)` directly.
The `GetConfig` call in the `len` check consumes trace index 0; the run
loop's own calls consume the following indices. -/
def Engine.Start (cancelled : Nat → Bool) (taskRes : Nat → Option String)
    (live : Nat → Config) (fuel : Nat) : StartOutcome :=
  if (live 0).Periods = [] then
    StartOutcome.noWindow (Engine.run cancelled taskRes (fun g => live (g + 1)) fuel)
  else
    StartOutcome.windowed

/-- C8: whenever the run loop is at an iteration whose task invocation
fails while the post-failure delay of its current config is negative, it
returns that error at once: no sleep is recorded and no further invocation
happens (the invocation count ends at `n + 1`). -/
theorem runGo_negative_fail_delay (cancelled : Nat → Bool)
    (taskRes : Nat → Option String) (live : Nat → Config)
    (fuel : Nat) (cfg : Config) (g n : Nat) (err : String)
    (hc : cancelled n = false) (ht : taskRes n = some err)
    (hf : cfg.FailInterval < 0) :
    runGo cancelled taskRes live (fuel + 1) cfg g n =
      ⟨RunResult.taskErr err, [], n + 1⟩ := by
  simp [runGo, hc, ht, hf]

/-- A config with no windows and a negative post-failure delay. -/
def cfgFatal : Config :=
  { Name := "t", Periods := [], SuccessInterval := 0, FailInterval := -1 }

/-- Witness for `runGo_negative_fail_delay`: a failing first invocation
under `cfgFatal` returns the task's error with no sleeps. -/
theorem runGo_negative_fail_delay_witness :
    ((fun _ => false : Nat → Bool) 0 = false) ∧
    ((fun _ => some ("boom") : Nat → Option String) 0 = some ("boom")) ∧
    cfgFatal.FailInterval < 0 ∧
    runGo (fun _ => false) (fun _ => some ("boom")) (fun _ => cfgFatal) 1 cfgFatal 1 0 =
      ⟨RunResult.taskErr ("boom"), [], 1⟩ :=
  ⟨rfl, rfl, by decide,
   runGo_negative_fail_delay (fun _ => false) (fun _ => some ("boom")) (fun _ => cfgFatal)
     0 cfgFatal 1 0 ("boom") rfl rfl (by decide)⟩

/-- C9: with no windows configured, a post-success delay of -1 and a task
that always succeeds, `Start` takes the no-window branch and returns
success after exactly one task invocation and no sleep. -/
theorem start_oneshot (cfg : Config) (fuel : Nat)
    (hp : cfg.Periods = []) (hs : cfg.SuccessInterval = -1) :
    Engine.Start (fun _ => false) (fun _ => none) (fun _ => cfg) (fuel + 1) =
      StartOutcome.noWindow ⟨RunResult.success, [], 1⟩ := by
  simp [Engine.Start, hp, Engine.run, runGo, hs]

/-- A config with no windows and post-success delay -1. -/
def cfgOneShot : Config :=
  { Name := "t", Periods := [], SuccessInterval := -1, FailInterval := 0 }

/-- Witness for `start_oneshot` on `cfgOneShot`. -/
theorem start_oneshot_witness :
    cfgOneShot.Periods = [] ∧ cfgOneShot.SuccessInterval = -1 ∧
    Engine.Start (fun _ => false) (fun _ => none) (fun _ => cfgOneShot) 1 =
      StartOutcome.noWindow ⟨RunResult.success, [], 1⟩ :=
  ⟨rfl, rfl, start_oneshot cfgOneShot 0 rfl rfl⟩

/-- A config with no windows, zero post-success delay and a 50 ms
post-failure delay. -/
def cfgRetry : Config :=
  { Name := "t", Periods := [], SuccessInterval := 0, FailInterval := 50 }

/-- A `GetConfig` trace in which the initial read returns `cfgRetry` and
every later read returns the config with post-failure delay -1 (the config
was replaced right after the run loop started). -/
def liveSwap : Nat → Config :=
  fun g => if g = 0 then cfgRetry else cfgFatal

/-- C7 counterexample: the live config's post-failure delay is -1 from the
first replacement on, yet a run loop whose task keeps failing never
re-reads the config: it sleeps 50 ms before every retry and never returns
the task error, contradicting the claim that each retry iteration uses the
live delay and that a negative value stops the retrying. -/
theorem run_stale_fail_delay_counterexample :
    (liveSwap 1).FailInterval = -1 ∧
    Engine.run (fun _ => false) (fun _ => some ("boom")) liveSwap 3 =
      ⟨RunResult.fuelOut, [(true, 50), (true, 50), (true, 50)], 3⟩ := by
  constructor
  · rfl
  · rfl

/-- During an unbroken failure streak the loop never re-reads the config:
with a non-negative current `FailInterval` it retries for as long as it has
fuel, sleeping that same interval each time. -/
theorem runGo_failure_streak (cancelled : Nat → Bool) (taskRes : Nat → Option String)
    (live : Nat → Config) (err : String)
    (hc : ∀ n, cancelled n = false) (ht : ∀ n, taskRes n = some err) :
    ∀ fuel cfg g n, 0 ≤ cfg.FailInterval →
      runGo cancelled taskRes live fuel cfg g n =
        ⟨RunResult.fuelOut, List.replicate fuel (true, cfg.FailInterval), n + fuel⟩ := by
  intro fuel
  induction fuel with
  | zero => intro cfg g n _; rfl
  | succ f ih =>
    intro cfg g n hfi
    have hlt : ¬(cfg.FailInterval < 0) := by omega
    simp only [runGo, hc n, ht n, if_neg hlt, Bool.false_eq_true, if_false,
      ih cfg g (n + 1) hfi, List.replicate]
    have harith : n + 1 + f = n + (f + 1) := by omega
    rw [harith]

/-- C7 amended: the run loop reads the config once at entry and again only
after a successful invocation; while the task keeps failing, every retry
uses the post-failure delay of the config read before the streak, so a
negative delay installed mid-streak is not observed and the retrying does
not stop. -/
theorem run_fail_delay_reread_on_success_only (live : Nat → Config)
    (err : String) (fuel : Nat)
    (hfi : 0 ≤ (live 0).FailInterval) :
    Engine.run (fun _ => false) (fun _ => some (err)) live fuel =
      ⟨RunResult.fuelOut, List.replicate fuel (true, (live 0).FailInterval), fuel⟩ := by
  have h := runGo_failure_streak (fun _ => false) (fun _ => some (err)) live err
    (fun _ => rfl) (fun _ => rfl) fuel (live 0) 1 0 hfi
  simpa [Engine.run] using h

/-- Witness for `run_fail_delay_reread_on_success_only` on the `liveSwap`
trace with two units of fuel. -/
theorem run_fail_delay_reread_on_success_only_witness :
    0 ≤ (liveSwap 0).FailInterval ∧
    Engine.run (fun _ => false) (fun _ => some ("boom")) liveSwap 2 =
      ⟨RunResult.fuelOut, List.replicate 2 (true, (liveSwap 0).FailInterval), 2⟩ :=
  ⟨by decide, run_fail_delay_reread_on_success_only liveSwap ("boom") 2 (by decide)⟩

/-- State of the polling loop of `Engine.Start` (regular.go lines 108-153):
the `currentStartHour` / `currentStartMinute` variables (initialised to
-1), whether `e.cancel` is non-nil, and a ghost list of the (start hour,
start minute) of every window whose run loop has been launched, in order. -/
structure PollState where
  currentStartHour : Int
  currentStartMinute : Int
  cancelActive : Bool
  launches : List (Int × Int)
deriving Repr, DecidableEq

/-- Embedding of the `for _, v := range periods` scan of one polling tick
(regular.go lines 119-141): while a window is current, any window with a
different start is skipped; `start && !end` on a window with a new start
hour records it as current, creates a cancellable context
(`cancelActive := true`), launches its run loop (ghost-recorded) and
breaks; `start && end` with an active context cancels the context and nils
`e.cancel` — and changes nothing else. -/
def scanPeriods (hour minute : Int) : List TimePeriod → PollState → PollState
  | [], s => s
  | v :: rest, s =>
    if s.currentStartHour > -1 ∧
        (¬(s.currentStartHour = v.startHour) ∨ ¬(s.currentStartMinute = v.startMinute)) then
      scanPeriods hour minute rest s
    else
      let c := CheckTime v.startHour v.startMinute v.endHour v.endMinute hour minute
      if c.1 = true ∧ c.2 = false ∧ ¬(s.currentStartHour = v.startHour) then
        { currentStartHour := v.startHour
          currentStartMinute := v.startMinute
          cancelActive := true
          launches := s.launches ++ [(v.startHour, v.startMinute)] }
      else if c.1 = true ∧ c.2 = true ∧ s.cancelActive = true then
        scanPeriods hour minute rest { s with cancelActive := false }
      else
        scanPeriods hour minute rest s

/-- A sequence of polling ticks at the given wall-clock (hour, minute)
pairs, each running one scan over the configured periods. -/
def pollTicks (periods : List TimePeriod) (ticks : List (Int × Int)) (s : PollState) :
    PollState :=
  ticks.foldl (fun st t => scanPeriods t.1 t.2 periods st) s

/-- Initial polling state: no current window, nil cancellation handle. -/
def pollInit : PollState :=
  { currentStartHour := -1, currentStartMinute := -1, cancelActive := false, launches := [] }

/-- Once some window is current (`currentStartHour > -1`) the scan can
never launch another run loop and never changes the current-window
bookkeeping: a window reaches its containment check only if it matches the
current start exactly, and the launch guard then demands a different start
hour.  Cancelling at `start && end` nils only the context handle. -/
theorem scanPeriods_no_launch_when_current (hour minute : Int) (ps : List TimePeriod)
    (s : PollState) (h : s.currentStartHour > -1) :
    (scanPeriods hour minute ps s).launches = s.launches ∧
    (scanPeriods hour minute ps s).currentStartHour = s.currentStartHour := by
  induction ps generalizing s with
  | nil => exact ⟨rfl, rfl⟩
  | cons v rest ih =>
    simp only [scanPeriods]
    by_cases hskip : s.currentStartHour > -1 ∧
        (¬(s.currentStartHour = v.startHour) ∨ ¬(s.currentStartMinute = v.startMinute))
    · rw [if_pos hskip]; exact ih s h
    · rw [if_neg hskip]
      push_neg at hskip
      have heq := hskip h
      have hlaunch : ¬((CheckTime v.startHour v.startMinute v.endHour v.endMinute
          hour minute).1 = true ∧
          (CheckTime v.startHour v.startMinute v.endHour v.endMinute hour minute).2 = false ∧
          ¬(s.currentStartHour = v.startHour)) := by
        rintro ⟨_, _, hne⟩; exact hne heq.1
      rw [if_neg hlaunch]
      by_cases hcancel : (CheckTime v.startHour v.startMinute v.endHour v.endMinute
          hour minute).1 = true ∧
          (CheckTime v.startHour v.startMinute v.endHour v.endMinute hour minute).2 = true ∧
          s.cancelActive = true
      · rw [if_pos hcancel]; exact ih { s with cancelActive := false } h
      · rw [if_neg hcancel]; exact ih s h

/-- Parsed window 08:00-09:00. -/
def windowMorning : TimePeriod :=
  { Start := "08:00", End := "09:00",
    startHour := 8, startMinute := 0, endHour := 9, endMinute := 0 }

/-- Parsed window 10:00-11:00. -/
def windowLate : TimePeriod :=
  { Start := "10:00", End := "11:00",
    startHour := 10, startMinute := 0, endHour := 11, endMinute := 0 }

/-- C1: with windows 08:00-09:00 and 10:00-11:00 and ticks at 08:00, 09:00
and 10:00, the 08:00 tick launches the first window; the 09:00 tick sees
`start && end` with an active context and cancels it — but leaves
`currentStartHour` at 8; so at the 10:00 tick the second window, whose
containment check reports `start && !end`, is skipped by the
current-window filter and never launched: `launches` stays `[(8, 0)]`,
against the claim that a different window is picked up after the previous
one ends. -/
theorem poll_second_window_never_launched :
    (pollTicks [windowMorning, windowLate] [(8, 0), (9, 0)] pollInit).cancelActive = false ∧
    (pollTicks [windowMorning, windowLate] [(8, 0), (9, 0)] pollInit).currentStartHour = 8 ∧
    CheckTime windowLate.startHour windowLate.startMinute windowLate.endHour
      windowLate.endMinute 10 0 = (true, false) ∧
    (pollTicks [windowMorning, windowLate] [(8, 0), (9, 0), (10, 0)] pollInit).launches =
      [(8, 0)] := by
  refine ⟨by decide, by decide, by decide, by decide⟩
